import Mathlib

/-!
Verification of the inscription content-hash fetcher
(`src/extras/inscription_hash.py`).

The development shallowly embeds the Python script:

* `hashlib.sha256(content).hexdigest()` is embedded as `sha256Hex`, the
  FIPS-180-4 SHA-256 algorithm over byte lists (`List Nat`, each < 256),
  with 32-bit words represented as `Nat` reduced mod `2 ^ 32`.
* the network environment is an oracle `String → FetchOutcome`: each URL
  either raises (any exception from `requests.get` or from reading the
  body) or yields a `Response` with a status code, a body, and headers.
* `get_inscription_hash` is the loop over the three hard-coded endpoint
  URLs, returning the optional digest together with a trace of the HTTP
  requests issued (`Request`, carrying the `timeout=30` argument) and the
  diagnostic lines printed (`Event`).
-/

/-! ### SHA-256 over byte lists -/

/-- Reduce a natural number to a 32-bit word. -/
def w32 (n : Nat) : Nat := n % 4294967296

/-- Right rotation of a 32-bit word. -/
def rotr (n x : Nat) : Nat := w32 ((x >>> n) ||| (x <<< (32 - n)))

/-- Bitwise complement within 32 bits. -/
def notw (x : Nat) : Nat := (w32 x) ^^^ 4294967295

def ch (x y z : Nat) : Nat := (x &&& y) ^^^ (notw x &&& z)

def maj (x y z : Nat) : Nat := (x &&& y) ^^^ (x &&& z) ^^^ (y &&& z)

def bigSigma0 (x : Nat) : Nat := rotr 2 x ^^^ rotr 13 x ^^^ rotr 22 x

def bigSigma1 (x : Nat) : Nat := rotr 6 x ^^^ rotr 11 x ^^^ rotr 25 x

def smallSigma0 (x : Nat) : Nat := rotr 7 x ^^^ rotr 18 x ^^^ (x >>> 3)

def smallSigma1 (x : Nat) : Nat := rotr 17 x ^^^ rotr 19 x ^^^ (x >>> 10)

/-- The SHA-256 round constants. -/
def K : List Nat :=
  [1116352408, 1899447441, 3049323471, 3921009573, 961987163,
   1508970993, 2453635748, 2870763221, 3624381080, 310598401,
   607225278, 1426881987, 1925078388, 2162078206, 2614888103,
   3248222580, 3835390401, 4022224774, 264347078, 604807628,
   770255983, 1249150122, 1555081692, 1996064986, 2554220882,
   2821834349, 2952996808, 3210313671, 3336571891, 3584528711,
   113926993, 338241895, 666307205, 773529912, 1294757372,
   1396182291, 1695183700, 1986661051, 2177026350, 2456956037,
   2730485921, 2820302411, 3259730800, 3345764771, 3516065817,
   3600352804, 4094571909, 275423344, 430227734, 506948616,
   659060556, 883997877, 958139571, 1322822218, 1537002063,
   1747873779, 1955562222, 2024104815, 2227730452, 2361852424,
   2428436474, 2756734187, 3204031479, 3329325298]

/-- SHA-256 working state: eight 32-bit words. -/
structure Hash where
  a : Nat
  b : Nat
  c : Nat
  d : Nat
  e : Nat
  f : Nat
  g : Nat
  h : Nat
deriving Repr, DecidableEq

/-- The SHA-256 initial hash value. -/
def H0 : Hash :=
  ⟨1779033703, 3144134277, 1013904242, 2773480762,
   1359893119, 2600822924, 528734635, 1541459225⟩

/-- Big-endian bytes (most significant first) of the 64-bit bit length. -/
def lenBytes64 (n : Nat) : List Nat :=
  [n / 2 ^ 56 % 256, n / 2 ^ 48 % 256, n / 2 ^ 40 % 256, n / 2 ^ 32 % 256,
   n / 2 ^ 24 % 256, n / 2 ^ 16 % 256, n / 2 ^ 8 % 256, n % 256]

/-- SHA-256 padding: append `0x80`, zero bytes up to 56 mod 64, then the
bit length as 8 big-endian bytes. -/
def padMessage (msg : List Nat) : List Nat :=
  let L := msg.length
  let z := (120 - (L + 1) % 64) % 64
  msg ++ [0x80] ++ List.replicate z 0 ++ lenBytes64 (8 * L)

/-- Split a byte list into chunks of 64 bytes; the fuel argument bounds
the number of chunks and makes the recursion structural. -/
def chunksAux : Nat → List Nat → List (List Nat)
  | 0, _ => []
  | _, [] => []
  | fuel + 1, x :: xs => ((x :: xs).take 64) :: chunksAux fuel ((x :: xs).drop 64)

/-- Split a byte list into chunks of 64 bytes. -/
def chunksOf64 (l : List Nat) : List (List Nat) := chunksAux l.length l

/-- Combine big-endian byte quadruples into 32-bit words. -/
def toWords : List Nat → List Nat
  | b0 :: b1 :: b2 :: b3 :: rest =>
      w32 (b0 * 2 ^ 24 + b1 * 2 ^ 16 + b2 * 2 ^ 8 + b3) :: toWords rest
  | _ => []

/-- Extend the 16-word message schedule by `n` further words. -/
def extendSchedule : Nat → Array Nat → Array Nat
  | 0, w => w
  | n + 1, w =>
      let i := w.size
      let nw := w32 (w.getD (i - 16) 0 + smallSigma0 (w.getD (i - 15) 0) +
                     w.getD (i - 7) 0 + smallSigma1 (w.getD (i - 2) 0))
      extendSchedule n (w.push nw)

/-- One SHA-256 compression round; `kw` pairs the round constant with the
scheduled word. -/
def roundStep (st : Hash) (kw : Nat × Nat) : Hash :=
  let t1 := w32 (st.h + bigSigma1 st.e + ch st.e st.f st.g + kw.1 + kw.2)
  let t2 := w32 (bigSigma0 st.a + maj st.a st.b st.c)
  ⟨w32 (t1 + t2), st.a, st.b, st.c, w32 (st.d + t1), st.e, st.f, st.g⟩

/-- Process one 64-byte chunk. -/
def processBlock (st : Hash) (chunk : List Nat) : Hash :=
  let w := extendSchedule 48 (Array.mk (toWords chunk))
  let r := (K.zip w.toList).foldl roundStep st
  ⟨w32 (st.a + r.a), w32 (st.b + r.b), w32 (st.c + r.c), w32 (st.d + r.d),
   w32 (st.e + r.e), w32 (st.f + r.f), w32 (st.g + r.g), w32 (st.h + r.h)⟩

/-- SHA-256 of a byte list, as the final eight-word state. -/
def sha256Words (msg : List Nat) : Hash :=
  (chunksOf64 (padMessage msg)).foldl processBlock H0

/-- Big-endian bytes of one 32-bit word. -/
def wordBytesBE (x : Nat) : List Nat :=
  [x / 2 ^ 24 % 256, x / 2 ^ 16 % 256, x / 2 ^ 8 % 256, x % 256]

/-- SHA-256 of a byte list, as the 32-byte digest. -/
def sha256Bytes (msg : List Nat) : List Nat :=
  let st := sha256Words msg
  wordBytesBE st.a ++ wordBytesBE st.b ++ wordBytesBE st.c ++ wordBytesBE st.d ++
  wordBytesBE st.e ++ wordBytesBE st.f ++ wordBytesBE st.g ++ wordBytesBE st.h

/-- One lowercase hexadecimal digit. -/
def hexChar (n : Nat) : Char :=
  if n < 10 then Char.ofNat (48 + n) else Char.ofNat (87 + n)

/-- Lowercase hexadecimal rendering of a byte list, two digits per byte. -/
def bytesToHexChars : List Nat → List Char
  | [] => []
  | b :: bs => hexChar (b / 16) :: hexChar (b % 16) :: bytesToHexChars bs

/-- Embedding of `hashlib.sha256(msg).hexdigest()`. -/
def sha256Hex (msg : List Nat) : String :=
  ⟨bytesToHexChars (sha256Bytes msg)⟩

/-! ### The network environment and the fetcher -/

/-- An HTTP response as the script observes it: the integer status code,
the body (reading `response.content` may itself raise, hence `Except`),
and the header list. -/
structure Response where
  status_code : Nat
  content : Except String (List Nat)
  headers : List (String × String)

/-- Outcome of `requests.get url`: either the call raises an exception
(carrying its message) or a response object is returned. -/
inductive FetchOutcome where
  | raised (msg : String)
  | resp (r : Response)

/-- A record of one HTTP GET issued by the script, with the `timeout`
argument it passed. -/
structure Request where
  url : String
  timeout : Nat
deriving Repr, DecidableEq

/-- One line of the script's diagnostic output. -/
inductive Event where
  | trying (url : String)
  | statusCode (code : Nat)
  | errorMsg (msg : String)
  | successInfo (len : Nat) (contentType : String) (digest : String)
  | allFailed
deriving Repr, DecidableEq

/-- Embedding of `response.headers.get(key, dflt)`. -/
def headerGet (hs : List (String × String)) (key dflt : String) : String :=
  match hs.find? (fun p => p.1 = key) with
  | some p => p.2
  | none => dflt

/-- The hard-coded endpoint list of the script, with the inscription id
substituted verbatim into each URL template. -/
def endpoints (inscription_id : String) : List String :=
  ["https://ordinals.com/content/" ++ inscription_id,
   "https://ord.io/content/" ++ inscription_id,
   "https://ordiscan.com/content/" ++ inscription_id]

/-- The `for url in endpoints` loop of `get_inscription_hash`: returns the
optional digest, the list of HTTP requests issued, and the diagnostic
events printed. Any exception inside the loop body — from `requests.get`
or from reading `response.content` after a 200 — is caught and turns into
trying the next endpoint. -/
def tryEndpoints (env : String → FetchOutcome) :
    List String → Option String × List Request × List Event
  | [] => (none, [], [Event.allFailed])
  | url :: rest =>
    match env url with
    | .raised msg =>
        let t := tryEndpoints env rest
        (t.1, ⟨url, 30⟩ :: t.2.1, .trying url :: .errorMsg msg :: t.2.2)
    | .resp r =>
        if r.status_code = 200 then
          match r.content with
          | .error msg =>
              let t := tryEndpoints env rest
              (t.1, ⟨url, 30⟩ :: t.2.1, .trying url :: .errorMsg msg :: t.2.2)
          | .ok content =>
              let hv := sha256Hex content
              (some hv, [⟨url, 30⟩],
               [.trying url,
                .successInfo content.length (headerGet r.headers "content-type" "unknown") hv])
        else
          let t := tryEndpoints env rest
          (t.1, ⟨url, 30⟩ :: t.2.1, .trying url :: .statusCode r.status_code :: t.2.2)

/-- Embedding of `get_inscription_hash(inscription_id)` run against the
network environment `env`. -/
def get_inscription_hash (env : String → FetchOutcome) (inscription_id : String) :
    Option String × List Request × List Event :=
  tryEndpoints env (endpoints inscription_id)

/-! ### Concrete test environments -/

/-- Environment in which every URL answers 200 with a three-byte body that
contains a non-UTF8-safe byte. -/
def envOkFirst : String → FetchOutcome :=
  fun _ => .resp ⟨200, Except.ok [0, 1, 255], [("content-type", "image/png")]⟩

/-- Like `envOkFirst` except that one unrelated URL raises. -/
def envOkFirst2 : String → FetchOutcome :=
  fun u =>
    if u = "https://unrelated.example/" then .raised "boom"
    else .resp ⟨200, Except.ok [0, 1, 255], [("content-type", "image/png")]⟩

/-- Environment in which the first endpoint of id `xi0` raises and every
other URL answers 200. -/
def envFallback : String → FetchOutcome :=
  fun u =>
    if u = "https://ordinals.com/content/xi0" then .raised "connection refused"
    else .resp ⟨200, Except.ok [7, 8], []⟩

/-- Environment in which every URL raises. -/
def envAllFail : String → FetchOutcome := fun _ => .raised "down"

/-- Environment in which every URL answers with status 404. -/
def env404 : String → FetchOutcome :=
  fun _ => .resp ⟨404, Except.ok [], []⟩

/-- Environment in which every URL answers 200 but reading the body
raises. -/
def envBodyRaise : String → FetchOutcome :=
  fun _ => .resp ⟨200, Except.error "read aborted", []⟩

/-! ### Helper lemmas -/

/-- The sixteen lowercase hexadecimal digits. -/
def hexDigits : List Char := "0123456789abcdef".data

theorem hexChar_mem_hexDigits {n : Nat} (h : n < 16) : hexChar n ∈ hexDigits := by
  interval_cases n <;> decide

theorem length_bytesToHexChars (bs : List Nat) :
    (bytesToHexChars bs).length = 2 * bs.length := by
  induction bs with
  | nil => rfl
  | cons b bs ih => simp [bytesToHexChars, ih]; omega

theorem mem_bytesToHexChars {c : Char} :
    ∀ {bs : List Nat}, (∀ b ∈ bs, b < 256) → c ∈ bytesToHexChars bs →
      c ∈ hexDigits := by
  intro bs
  induction bs with
  | nil => intro _ hc; simp [bytesToHexChars] at hc
  | cons b bs ih =>
    intro hb hc
    simp only [bytesToHexChars, List.mem_cons] at hc
    rcases hc with rfl | rfl | hc
    · exact hexChar_mem_hexDigits (by have := hb b (by simp); omega)
    · exact hexChar_mem_hexDigits (by omega)
    · exact ih (fun x hx => hb x (by simp [hx])) hc

theorem length_sha256Bytes (msg : List Nat) : (sha256Bytes msg).length = 32 := by
  simp [sha256Bytes, wordBytesBE]

theorem mem_sha256Bytes_lt (msg : List Nat) : ∀ b ∈ sha256Bytes msg, b < 256 := by
  intro b hb
  simp [sha256Bytes, wordBytesBE] at hb
  omega

theorem sha256Hex_length (msg : List Nat) : (sha256Hex msg).length = 64 := by
  show (bytesToHexChars (sha256Bytes msg)).length = 64
  rw [length_bytesToHexChars, length_sha256Bytes]

theorem sha256Hex_mem_hexDigits (msg : List Nat) :
    ∀ c ∈ (sha256Hex msg).data, c ∈ hexDigits := by
  intro c hc
  exact mem_bytesToHexChars (mem_sha256Bytes_lt msg) hc

theorem tryEndpoints_raised {env : String → FetchOutcome} {url msg : String}
    (rest : List String) (h : env url = .raised msg) :
    tryEndpoints env (url :: rest) =
      ((tryEndpoints env rest).1, ⟨url, 30⟩ :: (tryEndpoints env rest).2.1,
       .trying url :: .errorMsg msg :: (tryEndpoints env rest).2.2) := by
  simp [tryEndpoints, h]

theorem tryEndpoints_non200 {env : String → FetchOutcome} {url : String} {r : Response}
    (rest : List String) (h : env url = .resp r) (h200 : r.status_code ≠ 200) :
    tryEndpoints env (url :: rest) =
      ((tryEndpoints env rest).1, ⟨url, 30⟩ :: (tryEndpoints env rest).2.1,
       .trying url :: .statusCode r.status_code :: (tryEndpoints env rest).2.2) := by
  simp [tryEndpoints, h, h200]

theorem tryEndpoints_contentError {env : String → FetchOutcome} {url msg : String}
    {r : Response} (rest : List String) (h : env url = .resp r)
    (h200 : r.status_code = 200) (hc : r.content = .error msg) :
    tryEndpoints env (url :: rest) =
      ((tryEndpoints env rest).1, ⟨url, 30⟩ :: (tryEndpoints env rest).2.1,
       .trying url :: .errorMsg msg :: (tryEndpoints env rest).2.2) := by
  simp [tryEndpoints, h, h200, hc]

theorem tryEndpoints_success {env : String → FetchOutcome} {url : String}
    {r : Response} {b : List Nat} (rest : List String) (h : env url = .resp r)
    (h200 : r.status_code = 200) (hc : r.content = Except.ok b) :
    tryEndpoints env (url :: rest) =
      (some (sha256Hex b), [⟨url, 30⟩],
       [.trying url,
        .successInfo b.length (headerGet r.headers "content-type" "unknown")
          (sha256Hex b)]) := by
  simp [tryEndpoints, h, h200, hc]

theorem tryEndpoints_head_requested (env : String → FetchOutcome) (url : String)
    (rest : List String) :
    (⟨url, 30⟩ : Request) ∈ (tryEndpoints env (url :: rest)).2.1 := by
  cases h : env url with
  | raised msg => simp [tryEndpoints_raised rest h]
  | resp r =>
    by_cases h200 : r.status_code = 200
    · cases hc : r.content with
      | error msg => simp [tryEndpoints_contentError rest h h200 hc]
      | ok b => simp [tryEndpoints_success rest h h200 hc]
    · simp [tryEndpoints_non200 rest h h200]

theorem tryEndpoints_fst_some {env : String → FetchOutcome} :
    ∀ {l : List String} {d : String}, (tryEndpoints env l).1 = some d →
      ∃ u r b, u ∈ l ∧ env u = .resp r ∧ r.status_code = 200 ∧
        r.content = Except.ok b ∧ d = sha256Hex b := by
  intro l
  induction l with
  | nil => intro d hd; simp [tryEndpoints] at hd
  | cons u rest ih =>
    intro d hd
    cases h : env u with
    | raised msg =>
      rw [tryEndpoints_raised rest h] at hd
      obtain ⟨u2, r2, b2, hm, h1, h2, h3, h4⟩ := ih hd
      exact ⟨u2, r2, b2, List.mem_cons_of_mem u hm, h1, h2, h3, h4⟩
    | resp r =>
      by_cases h200 : r.status_code = 200
      · cases hc : r.content with
        | error msg =>
          rw [tryEndpoints_contentError rest h h200 hc] at hd
          obtain ⟨u2, r2, b2, hm, h1, h2, h3, h4⟩ := ih hd
          exact ⟨u2, r2, b2, List.mem_cons_of_mem u hm, h1, h2, h3, h4⟩
        | ok b =>
          rw [tryEndpoints_success rest h h200 hc] at hd
          simp at hd
          exact ⟨u, r, b, List.mem_cons_self u rest, h, h200, hc, hd.symm⟩
      · rw [tryEndpoints_non200 rest h h200] at hd
        obtain ⟨u2, r2, b2, hm, h1, h2, h3, h4⟩ := ih hd
        exact ⟨u2, r2, b2, List.mem_cons_of_mem u hm, h1, h2, h3, h4⟩

/-- One failed endpoint attempt: the GET raised, or a response arrived whose
status code is not 200, or the body read after a 200 raised. -/
def attemptFails (o : FetchOutcome) : Prop :=
  (∃ msg, o = .raised msg) ∨
  ∃ r, o = .resp r ∧
    (r.status_code ≠ 200 ∨ ∃ msg, r.content = Except.error msg)

theorem tryEndpoints_all_fail {env : String → FetchOutcome} :
    ∀ {l : List String}, (∀ u ∈ l, attemptFails (env u)) →
      (tryEndpoints env l).1 = none ∧
        Event.allFailed ∈ (tryEndpoints env l).2.2 := by
  intro l
  induction l with
  | nil => intro _; simp [tryEndpoints]
  | cons u rest ih =>
    intro hall
    have hrest := ih (fun x hx => hall x (List.mem_cons_of_mem u hx))
    rcases hall u (List.mem_cons_self u rest) with ⟨msg, h⟩ | ⟨r, h, hbad⟩
    · rw [tryEndpoints_raised rest h]
      exact ⟨hrest.1, by simp [hrest.2]⟩
    · by_cases h200 : r.status_code = 200
      · rcases hbad with h200n | ⟨msg, hc⟩
        · exact absurd h200 h200n
        · rw [tryEndpoints_contentError rest h h200 hc]
          exact ⟨hrest.1, by simp [hrest.2]⟩
      · rw [tryEndpoints_non200 rest h h200]
        exact ⟨hrest.1, by simp [hrest.2]⟩

theorem tryEndpoints_reqs_timeout (env : String → FetchOutcome) :
    ∀ l : List String,
      (∀ req ∈ (tryEndpoints env l).2.1, req.timeout = 30) ∧
        (tryEndpoints env l).2.1.length ≤ l.length := by
  intro l
  induction l with
  | nil => simp [tryEndpoints]
  | cons u rest ih =>
    cases h : env u with
    | raised msg =>
      rw [tryEndpoints_raised rest h]
      refine ⟨?_, by simpa using Nat.succ_le_succ ih.2⟩
      intro req hreq
      rcases List.mem_cons.mp hreq with rfl | hreq
      · rfl
      · exact ih.1 req hreq
    | resp r =>
      by_cases h200 : r.status_code = 200
      · cases hc : r.content with
        | error msg =>
          rw [tryEndpoints_contentError rest h h200 hc]
          refine ⟨?_, by simpa using Nat.succ_le_succ ih.2⟩
          intro req hreq
          rcases List.mem_cons.mp hreq with rfl | hreq
          · rfl
          · exact ih.1 req hreq
        | ok b =>
          rw [tryEndpoints_success rest h h200 hc]
          refine ⟨?_, by simp⟩
          intro req hreq
          rcases List.mem_cons.mp hreq with rfl | hreq
          · rfl
          · simp at hreq
      · rw [tryEndpoints_non200 rest h h200]
        refine ⟨?_, by simpa using Nat.succ_le_succ ih.2⟩
        intro req hreq
        rcases List.mem_cons.mp hreq with rfl | hreq
        · rfl
        · exact ih.1 req hreq

theorem tryEndpoints_reqs_take (env : String → FetchOutcome) :
    ∀ l : List String,
      ∃ k, (tryEndpoints env l).2.1.map Request.url = l.take k := by
  intro l
  induction l with
  | nil => exact ⟨0, by simp [tryEndpoints]⟩
  | cons u rest ih =>
    obtain ⟨k, hk⟩ := ih
    cases h : env u with
    | raised msg =>
      exact ⟨k + 1, by rw [tryEndpoints_raised rest h]; simp [hk]⟩
    | resp r =>
      by_cases h200 : r.status_code = 200
      · cases hc : r.content with
        | error msg =>
          exact ⟨k + 1, by rw [tryEndpoints_contentError rest h h200 hc]; simp [hk]⟩
        | ok b =>
          exact ⟨1, by rw [tryEndpoints_success rest h h200 hc]; simp⟩
      · exact ⟨k + 1, by rw [tryEndpoints_non200 rest h h200]; simp [hk]⟩

theorem tryEndpoints_congr {env1 env2 : String → FetchOutcome} :
    ∀ {l : List String}, (∀ u ∈ l, env1 u = env2 u) →
      tryEndpoints env1 l = tryEndpoints env2 l := by
  intro l
  induction l with
  | nil => intro _; rfl
  | cons u rest ih =>
    intro hagree
    have hu : env1 u = env2 u := hagree u (List.mem_cons_self u rest)
    have hrest := ih (fun x hx => hagree x (List.mem_cons_of_mem u hx))
    simp only [tryEndpoints, hu, hrest]

theorem append_id_cancel {s t u : String} (h : s ++ u = t ++ u) : s = t := by
  have hd := congrArg String.data h
  rw [String.data_append, String.data_append] at hd
  exact congrArg String.mk (List.append_cancel_right hd)

theorem endpoints_ne_12 (id : String) :
    "https://ordinals.com/content/" ++ id ≠ "https://ord.io/content/" ++ id := by
  intro h
  exact absurd (append_id_cancel h) (by decide)

theorem endpoints_ne_13 (id : String) :
    "https://ordinals.com/content/" ++ id ≠ "https://ordiscan.com/content/" ++ id := by
  intro h
  exact absurd (append_id_cancel h) (by decide)

theorem endpoints_ne_23 (id : String) :
    "https://ord.io/content/" ++ id ≠ "https://ordiscan.com/content/" ++ id := by
  intro h
  exact absurd (append_id_cancel h) (by decide)

theorem endpoints_nodup (id : String) : (endpoints id).Nodup := by
  simp [endpoints, List.nodup_cons]
  exact ⟨⟨endpoints_ne_12 id, endpoints_ne_13 id⟩, endpoints_ne_23 id⟩

theorem reqs_url_nodup (env : String → FetchOutcome) (id : String) :
    ((get_inscription_hash env id).2.1.map Request.url).Nodup := by
  obtain ⟨k, hk⟩ := tryEndpoints_reqs_take env (endpoints id)
  show ((tryEndpoints env (endpoints id)).2.1.map Request.url).Nodup
  rw [hk]
  exact (List.take_sublist k (endpoints id)).nodup (endpoints_nodup id)

/-! ### The claims -/

/-- C1: whenever `get_inscription_hash` returns a digest, that digest is
the SHA-256 hex digest of the raw body bytes of the winning endpoint (an
endpoint whose GET returned status 200 and whose body read succeeded), and
it is a lowercase hexadecimal string of length exactly 64. -/
theorem claim1_digest_correct (env : String → FetchOutcome) (id d : String)
    (hd : (get_inscription_hash env id).1 = some d) :
    (∃ u r b, u ∈ endpoints id ∧ env u = .resp r ∧ r.status_code = 200 ∧
      r.content = Except.ok b ∧ d = sha256Hex b) ∧
    d.length = 64 ∧ ∀ c ∈ d.data, c ∈ hexDigits := by
  obtain ⟨u, r, b, hm, h1, h2, h3, h4⟩ := tryEndpoints_fst_some hd
  subst h4
  exact ⟨⟨u, r, b, hm, h1, h2, h3, rfl⟩, sha256Hex_length b,
    sha256Hex_mem_hexDigits b⟩

/-- C2: if the first endpoint's GET returns HTTP 200 (and its body is
read), `get_inscription_hash` returns that body's digest at once, issues
exactly one request (to the first endpoint only), and prints only the
corresponding two diagnostic lines — the second and third endpoints are
never contacted. -/
theorem claim2_short_circuit (env : String → FetchOutcome) (id : String)
    (r : Response) (b : List Nat)
    (h : env ("https://ordinals.com/content/" ++ id) = .resp r)
    (h200 : r.status_code = 200) (hc : r.content = Except.ok b) :
    get_inscription_hash env id =
      (some (sha256Hex b),
       [⟨"https://ordinals.com/content/" ++ id, 30⟩],
       [.trying ("https://ordinals.com/content/" ++ id),
        .successInfo b.length (headerGet r.headers "content-type" "unknown")
          (sha256Hex b)]) := by
  show tryEndpoints env
    (("https://ordinals.com/content/" ++ id) ::
     ["https://ord.io/content/" ++ id, "https://ordiscan.com/content/" ++ id]) = _
  exact tryEndpoints_success _ h h200 hc

/-- C3: if the first endpoint fails (a raised error or a non-200 status)
and the second endpoint returns HTTP 200 with a readable body, then the
result is the SHA-256 digest of the second endpoint's body, the requests
issued are exactly endpoint 1 then endpoint 2, and no request ever goes to
the third endpoint. -/
theorem claim3_fallback (env : String → FetchOutcome) (id : String)
    (r2 : Response) (b2 : List Nat)
    (hfail : (∃ msg, env ("https://ordinals.com/content/" ++ id) = .raised msg) ∨
      (∃ r, env ("https://ordinals.com/content/" ++ id) = .resp r ∧
        r.status_code ≠ 200))
    (h2 : env ("https://ord.io/content/" ++ id) = .resp r2)
    (h200 : r2.status_code = 200) (hc : r2.content = Except.ok b2) :
    (get_inscription_hash env id).1 = some (sha256Hex b2) ∧
    (get_inscription_hash env id).2.1.map Request.url =
      ["https://ordinals.com/content/" ++ id, "https://ord.io/content/" ++ id] ∧
    ∀ req ∈ (get_inscription_hash env id).2.1,
      req.url ≠ "https://ordiscan.com/content/" ++ id := by
  have hstep2 := tryEndpoints_success ["https://ordiscan.com/content/" ++ id]
    h2 h200 hc
  have hshow : get_inscription_hash env id =
      tryEndpoints env (("https://ordinals.com/content/" ++ id) ::
        ["https://ord.io/content/" ++ id, "https://ordiscan.com/content/" ++ id]) := rfl
  obtain ⟨hfst, hreqs⟩ : (get_inscription_hash env id).1 = some (sha256Hex b2) ∧
      (get_inscription_hash env id).2.1 =
        [⟨"https://ordinals.com/content/" ++ id, 30⟩,
         ⟨"https://ord.io/content/" ++ id, 30⟩] := by
    rcases hfail with ⟨msg, h1⟩ | ⟨r1, h1, h1ne⟩
    · rw [hshow, tryEndpoints_raised _ h1, hstep2]
      exact ⟨rfl, rfl⟩
    · rw [hshow, tryEndpoints_non200 _ h1 h1ne, hstep2]
      exact ⟨rfl, rfl⟩
  refine ⟨hfst, by rw [hreqs]; rfl, ?_⟩
  intro req hreq
  rw [hreqs] at hreq
  simp only [List.mem_cons, List.not_mem_nil, or_false] at hreq
  rcases hreq with rfl | rfl
  · exact endpoints_ne_13 id
  · exact endpoints_ne_23 id

/-- C4: if every endpoint attempt fails (the GET raised, a non-200 status
arrived, or the body read raised), the call returns `none`, and the final
failure message is printed; no exception escapes (the embedding is a total
function into `Option`). -/
theorem claim4_total_failure (env : String → FetchOutcome) (id : String)
    (hall : ∀ u ∈ endpoints id, attemptFails (env u)) :
    (get_inscription_hash env id).1 = none ∧
      Event.allFailed ∈ (get_inscription_hash env id).2.2 :=
  tryEndpoints_all_fail hall

/-- C5: exactly status 200 counts as success: an attempt whose response
carries any other status code (3xx, 4xx, 5xx alike) leaves the result to
the remaining endpoints, prints the numeric code, and the next endpoint —
whichever heads the remaining list — is then contacted. -/
theorem claim5_non200 (env : String → FetchOutcome) (url : String)
    (rest : List String) (r : Response)
    (h : env url = .resp r) (h200 : r.status_code ≠ 200) :
    tryEndpoints env (url :: rest) =
      ((tryEndpoints env rest).1, ⟨url, 30⟩ :: (tryEndpoints env rest).2.1,
       .trying url :: .statusCode r.status_code :: (tryEndpoints env rest).2.2) ∧
    ∀ u2 rest2, (⟨u2, 30⟩ : Request) ∈ (tryEndpoints env (u2 :: rest2)).2.1 :=
  ⟨tryEndpoints_non200 rest h h200,
   fun u2 rest2 => tryEndpoints_head_requested env u2 rest2⟩

/-- C6: a raised network error of any kind is caught locally, its message
is printed, and the loop moves on to the remaining endpoints — the same
equation holds for every message, so all error kinds are treated
identically; moreover in any run no endpoint URL is ever requested twice. -/
theorem claim6_error_caught (env : String → FetchOutcome) (url msg : String)
    (rest : List String) (h : env url = .raised msg) :
    tryEndpoints env (url :: rest) =
      ((tryEndpoints env rest).1, ⟨url, 30⟩ :: (tryEndpoints env rest).2.1,
       .trying url :: .errorMsg msg :: (tryEndpoints env rest).2.2) ∧
    ∀ (env2 : String → FetchOutcome) (id2 : String),
      ((get_inscription_hash env2 id2).2.1.map Request.url).Nodup :=
  ⟨tryEndpoints_raised rest h, fun env2 id2 => reqs_url_nodup env2 id2⟩

/-- C7: every request the call issues carries the timeout argument 30, at
most three requests are issued (one per endpoint, strictly in sequence),
so the summed timeout budget of one call is at most 30 × 3 = 90 seconds. -/
theorem claim7_timeout_bound (env : String → FetchOutcome) (id : String) :
    (∀ req ∈ (get_inscription_hash env id).2.1, req.timeout = 30) ∧
    (get_inscription_hash env id).2.1.length ≤ 3 ∧
    ((get_inscription_hash env id).2.1.map Request.timeout).sum ≤ 90 := by
  obtain ⟨h30, hlen⟩ := tryEndpoints_reqs_timeout env (endpoints id)
  have hlen3 : (get_inscription_hash env id).2.1.length ≤ 3 := by
    simpa [endpoints] using hlen
  refine ⟨h30, hlen3, ?_⟩
  have hb := List.sum_le_card_nsmul
    ((get_inscription_hash env id).2.1.map Request.timeout) 30 ?_
  · have hl : ((get_inscription_hash env id).2.1.map Request.timeout).length ≤ 3 := by
      simpa using hlen3
    simp only [smul_eq_mul] at hb
    omega
  · intro x hx
    obtain ⟨req, hreq, rfl⟩ := List.mem_map.mp hx
    exact Nat.le_of_eq (h30 req hreq)

/-- C8: the endpoint list consists of exactly the three fixed URL
templates with the inscription id substituted verbatim, and every run
contacts an initial segment of that list in order. -/
theorem claim8_endpoint_templates (env : String → FetchOutcome) (id : String) :
    endpoints id =
      ["https://ordinals.com/content/" ++ id, "https://ord.io/content/" ++ id,
       "https://ordiscan.com/content/" ++ id] ∧
    (endpoints id).length = 3 ∧
    ∃ k, (get_inscription_hash env id).2.1.map Request.url = (endpoints id).take k :=
  ⟨rfl, rfl, tryEndpoints_reqs_take env (endpoints id)⟩

/-- C9: the exception handler also covers the success branch after an HTTP
200: if reading the body raises, the attempt is treated exactly like any
other caught error — the message is printed and the remaining endpoints
decide the result — rather than the exception escaping the call. -/
theorem claim9_broad_catch (env : String → FetchOutcome) (url msg : String)
    (rest : List String) (r : Response)
    (h : env url = .resp r) (h200 : r.status_code = 200)
    (hc : r.content = Except.error msg) :
    tryEndpoints env (url :: rest) =
      ((tryEndpoints env rest).1, ⟨url, 30⟩ :: (tryEndpoints env rest).2.1,
       .trying url :: .errorMsg msg :: (tryEndpoints env rest).2.2) :=
  tryEndpoints_contentError rest h h200 hc

/-- C10: the call is deterministic in its environment: two runs on the
same inscription id whose environments give the same outcome at each of
the three endpoint URLs produce identical results, request traces, and
diagnostic output. -/
theorem claim10_deterministic (env1 env2 : String → FetchOutcome) (id : String)
    (h : ∀ u ∈ endpoints id, env1 u = env2 u) :
    get_inscription_hash env1 id = get_inscription_hash env2 id :=
  tryEndpoints_congr h

/-! ### Witnesses -/

theorem claim1_digest_correct_witness :
    (get_inscription_hash envOkFirst "xi0").1 = some (sha256Hex [0, 1, 255]) ∧
    (sha256Hex [0, 1, 255]).length = 64 :=
  ⟨rfl, (claim1_digest_correct envOkFirst "xi0" (sha256Hex [0, 1, 255]) rfl).2.1⟩

theorem claim2_short_circuit_witness :
    get_inscription_hash envOkFirst "xi0" =
      (some (sha256Hex [0, 1, 255]),
       [⟨"https://ordinals.com/content/" ++ "xi0", 30⟩],
       [.trying ("https://ordinals.com/content/" ++ "xi0"),
        .successInfo 3 "image/png" (sha256Hex [0, 1, 255])]) :=
  claim2_short_circuit envOkFirst "xi0"
    ⟨200, Except.ok [0, 1, 255], [("content-type", "image/png")]⟩ [0, 1, 255]
    rfl rfl rfl

theorem claim3_fallback_witness :
    (get_inscription_hash envFallback "xi0").1 = some (sha256Hex [7, 8]) ∧
    (get_inscription_hash envFallback "xi0").2.1.map Request.url =
      ["https://ordinals.com/content/" ++ "xi0", "https://ord.io/content/" ++ "xi0"] :=
  ⟨(claim3_fallback envFallback "xi0" ⟨200, Except.ok [7, 8], []⟩ [7, 8]
      (Or.inl ⟨"connection refused", rfl⟩) rfl rfl rfl).1,
   (claim3_fallback envFallback "xi0" ⟨200, Except.ok [7, 8], []⟩ [7, 8]
      (Or.inl ⟨"connection refused", rfl⟩) rfl rfl rfl).2.1⟩

theorem claim4_total_failure_witness :
    (get_inscription_hash envAllFail "xi0").1 = none ∧
      Event.allFailed ∈ (get_inscription_hash envAllFail "xi0").2.2 :=
  claim4_total_failure envAllFail "xi0" (fun _ _ => Or.inl ⟨"down", rfl⟩)

theorem claim5_non200_witness :
    tryEndpoints env404 ("u" :: []) =
      ((tryEndpoints env404 []).1, ⟨"u", 30⟩ :: (tryEndpoints env404 []).2.1,
       .trying "u" :: .statusCode 404 :: (tryEndpoints env404 []).2.2) ∧
    (⟨"v", 30⟩ : Request) ∈ (tryEndpoints env404 ("v" :: [])).2.1 :=
  ⟨(claim5_non200 env404 "u" [] ⟨404, Except.ok [], []⟩ rfl (by decide)).1,
   (claim5_non200 env404 "u" [] ⟨404, Except.ok [], []⟩ rfl (by decide)).2 "v" []⟩

theorem claim6_error_caught_witness :
    tryEndpoints envAllFail ("u" :: []) =
      ((tryEndpoints envAllFail []).1,
       ⟨"u", 30⟩ :: (tryEndpoints envAllFail []).2.1,
       .trying "u" :: .errorMsg "down" :: (tryEndpoints envAllFail []).2.2) ∧
    ((get_inscription_hash envAllFail "xi0").2.1.map Request.url).Nodup :=
  ⟨(claim6_error_caught envAllFail "u" "down" [] rfl).1,
   (claim6_error_caught envAllFail "u" "down" [] rfl).2 envAllFail "xi0"⟩

theorem claim9_broad_catch_witness :
    tryEndpoints envBodyRaise ("u" :: ["v"]) =
      ((tryEndpoints envBodyRaise ["v"]).1,
       ⟨"u", 30⟩ :: (tryEndpoints envBodyRaise ["v"]).2.1,
       .trying "u" :: .errorMsg "read aborted" :: (tryEndpoints envBodyRaise ["v"]).2.2) :=
  claim9_broad_catch envBodyRaise "u" "read aborted" ["v"]
    ⟨200, Except.error "read aborted", []⟩ rfl rfl rfl

theorem claim10_deterministic_witness :
    get_inscription_hash envOkFirst "xi0" = get_inscription_hash envOkFirst2 "xi0" :=
  claim10_deterministic envOkFirst envOkFirst2 "xi0" (by
    intro u hu
    simp only [endpoints, List.mem_cons, List.not_mem_nil, or_false] at hu
    rcases hu with rfl | rfl | rfl <;> rfl)

/-! ### FIPS 180-4 test vectors for the embedded hash -/

set_option maxRecDepth 10000 in
theorem sha256Hex_empty :
    sha256Hex [] =
      "e3b0c44298fc1c149afbf4c8996fb92427ae41e4649b934ca495991b7852b855" := by
  decide

set_option maxRecDepth 10000 in
theorem sha256Hex_abc :
    sha256Hex [97, 98, 99] =
      "ba7816bf8f01cfea414140de5dae2223b00361a396177a9cb410ff61f20015ad" := by
  decide
